import Mathlib

/-!
Shallow embedding of the push-pull synchronization core of the yorkie
server (`yorkie/packs/pushpull.go`), together with theorems settling the
specification's claims about it.

Machine integers (`uint64`) are modelled as `Nat`: the sequence counters
only ever increase by one per accepted change and the single subtraction
`initialServerSeq - reqPack.Checkpoint.ServerSeq` is guarded by the
preceding `initialServerSeq < reqPack.Checkpoint.ServerSeq` error return,
so no wrap-around is reachable and `Nat` arithmetic coincides with the
Go semantics on every reachable input.

Fallible operations return `Except YorkieError`.  The external
collaborators (storage, CRDT document) are passed in as records of
functions, so theorems quantifying over them express that a code path
does not invoke them.
-/

namespace Yorkie

/-- Bytes of a stored snapshot, modelled as a list of byte values. -/
abbrev Bytes : Type := List Nat

/-- Modelled from the spec: `change.Checkpoint` (package `change` is not in
the shown sources) — "a monotonically comparable pair (clientSeq, serverSeq)".
-/
structure Checkpoint where
  clientSeq : Nat
  serverSeq : Nat
deriving DecidableEq, Repr

/-- Modelled from the spec: "`NextServerSeq(seq)` returns a copy with
serverSeq = seq". -/
def Checkpoint.NextServerSeq (cp : Checkpoint) (seq : Nat) : Checkpoint :=
  { cp with serverSeq := seq }

/-- Modelled from the spec: "`SyncClientSeq(seq)` returns a copy with
clientSeq = max(current, seq)". -/
def Checkpoint.SyncClientSeq (cp : Checkpoint) (seq : Nat) : Checkpoint :=
  { cp with clientSeq := max cp.clientSeq seq }

/-- Modelled from the spec: `change.InitialCheckpoint`, the zero watermark. -/
def InitialCheckpoint : Checkpoint := ⟨0, 0⟩

/-- Modelled from the spec: one client-authored edit (`change.Change`): a
client-assigned sequence number set at creation, and a server-assigned
sequence number unset (0) until the push stage stamps it. -/
structure Change where
  clientSeq : Nat
  serverSeq : Nat
deriving DecidableEq, Repr

/-- Modelled from the spec: `Change.SetServerSeq` stamps the server-assigned
sequence number onto the change. -/
def Change.SetServerSeq (cn : Change) (seq : Nat) : Change :=
  { cn with serverSeq := seq }

/-- Modelled from the spec: `change.Pack` — documentKey, checkpoint, ordered
changes, optional snapshot bytes. -/
structure Pack where
  documentKey : String
  checkpoint : Checkpoint
  changes : List Change
  snapshot : Option Bytes
deriving DecidableEq, Repr

/-- Modelled from the spec: `change.NewPack`. -/
def NewPack (key : String) (cp : Checkpoint) (changes : List Change)
    (snapshot : Option Bytes) : Pack :=
  ⟨key, cp, changes, snapshot⟩

/-- A stored change row (`db.ChangeInfo`): carries the assigned server
sequence number. -/
structure ChangeInfo where
  serverSeq : Nat
deriving DecidableEq, Repr

/-- Modelled from the spec: `SnapshotInfo` — "{serverSeq, snapshotBytes},
the most recent compacted state for a document as of a given server
sequence". -/
structure SnapshotInfo where
  serverSeq : Nat
  snapshot : Bytes
deriving DecidableEq, Repr

/-- Modelled from the spec: `db.DocInfo` — "owns a single monotonically
increasing serverSeq counter, a document key, and a human-readable combined
key for logging". -/
structure DocInfo where
  id : Nat
  docKey : String
  combinedKey : String
  serverSeq : Nat
deriving DecidableEq, Repr

/-- Modelled from the spec: `DocInfo.Key()` returns the document key. -/
def DocInfo.Key (d : DocInfo) : String := d.docKey

/-- Modelled from the spec: "`IncreaseServerSeq()` is the sole mutator of
the counter"; it increments and returns the new sequence number.  The Go
mutation is modelled by returning the updated `DocInfo` alongside. -/
def DocInfo.IncreaseServerSeq (d : DocInfo) : Nat × DocInfo :=
  (d.serverSeq + 1, { d with serverSeq := d.serverSeq + 1 })

/-- Modelled from the spec: `db.ClientInfo` — "owns exactly one Checkpoint
per attached document, looked up by document ID". -/
structure ClientInfo where
  id : String
  checkpoints : Nat → Checkpoint

/-- Modelled from the spec: `ClientInfo.Checkpoint(docID)` looks up the
client's checkpoint for the document. -/
def ClientInfo.Checkpoint (ci : ClientInfo) (docId : Nat) : Checkpoint :=
  ci.checkpoints docId

/-- Errors surfaced by the core: the invalid-server-sequence protocol error
(`ErrInvalidServerSeq`, wrapped with the two offending sequence numbers as
in the `fmt.Errorf` call), or an error propagated from an external
collaborator. -/
inductive YorkieError where
  | invalidServerSeq (initialServerSeq : Nat) (cpServerSeq : Nat)
  | external (msg : String)
deriving DecidableEq, Repr

/-- The storage collaborator (`be.DB`): the three read operations consumed
by the pull stage, each taking the document id and a server-sequence range. -/
structure DB where
  FindChangeInfosBetweenServerSeqs : Nat → Nat → Nat → Except YorkieError (List ChangeInfo)
  FindChangesBetweenServerSeqs : Nat → Nat → Nat → Except YorkieError (List Change)
  FindLastSnapshotInfo : Nat → Except YorkieError SnapshotInfo

/-- The CRDT document collaborator, abstract over the in-memory document
type `Doc`: instantiate from a snapshot, apply a change pack, serialize the
root object to bytes. -/
structure DocOps (Doc : Type) where
  NewInternalDocumentFromSnapshot : String → Nat → Bytes → Except YorkieError Doc
  ApplyChangePack : Doc → Pack → Except YorkieError Doc
  ObjectToBytes : Doc → Except YorkieError Bytes

/-- Configuration of the surrounding system consumed by the pull stage:
the snapshot threshold (`be.Config.SnapshotThreshold`). -/
structure Config where
  SnapshotThreshold : Nat
deriving DecidableEq, Repr

/-- The response pack (`ServerPack`): updated checkpoint plus either pulled
change rows or snapshot bytes (`nil` fields modelled as `none`). -/
structure ServerPack where
  documentKey : String
  checkpoint : Checkpoint
  changeInfos : Option (List ChangeInfo)
  snapshot : Option Bytes
deriving DecidableEq, Repr

/-- `NewServerPack(docKey, cp, changeInfos, snapshot)`. -/
def NewServerPack (key : String) (cp : Checkpoint)
    (changeInfos : Option (List ChangeInfo)) (snapshot : Option Bytes) : ServerPack :=
  ⟨key, cp, changeInfos, snapshot⟩

/-- The running state of the `pushChanges` loop: the running checkpoint
`cp`, the document's server-sequence counter, the accepted changes so far
(`pushedChanges`), and the number of warning log lines emitted so far (one
per dropped duplicate). -/
structure PushState where
  cp : Checkpoint
  docSeq : Nat
  pushed : List Change
  warns : Nat
deriving DecidableEq, Repr

/-- One iteration of the `pushChanges` loop body (pushpull.go lines 51-66):
if the change's client sequence exceeds the running checkpoint's clientSeq,
obtain the next server sequence, advance the checkpoint's serverSeq to it,
stamp the change and append it; otherwise log a warning.  Either way, sync
the checkpoint's clientSeq with the change's client sequence. -/
def pushStep (s : PushState) (cn : Change) : PushState :=
  let s' :=
    if cn.clientSeq > s.cp.clientSeq then
      let serverSeq := s.docSeq + 1
      { cp := s.cp.NextServerSeq serverSeq
        docSeq := serverSeq
        pushed := s.pushed ++ [cn.SetServerSeq serverSeq]
        warns := s.warns }
    else
      { s with warns := s.warns + 1 }
  { s' with cp := s'.cp.SyncClientSeq cn.clientSeq }

/-- The initial loop state of `pushChanges`: the client's stored checkpoint
for this document, the document's current counter, no accepted changes. -/
def PushState.init (ci : ClientInfo) (di : DocInfo) : PushState :=
  ⟨ci.Checkpoint di.id, di.serverSeq, [], 0⟩

/-- `pushChanges` (pushpull.go lines 41-82): fold the loop body over the
request's changes; return the final checkpoint, the mutated `DocInfo`
(its counter advanced once per accepted change) and the accepted list. -/
def pushChanges (ci : ClientInfo) (di : DocInfo) (reqPack : Pack) :
    Checkpoint × DocInfo × List Change :=
  let s := reqPack.changes.foldl pushStep (PushState.init ci di)
  (s.cp, { di with serverSeq := s.docSeq }, s.pushed)

/-- Number of log lines emitted by one `pushChanges` call: one warning per
dropped duplicate, plus the final info line exactly when the request's
change list is non-empty (pushpull.go lines 58-63 and 68-79). -/
def pushLogLines (ci : ClientInfo) (di : DocInfo) (reqPack : Pack) : Nat :=
  let s := reqPack.changes.foldl pushStep (PushState.init ci di)
  s.warns + (if reqPack.changes.length > 0 then 1 else 0)

/-- `pullChangeInfos` (pushpull.go lines 125-159): fetch the stored change
rows in range `(reqPack.checkpoint.serverSeq, initialServerSeq]`, then
advance the post-push checkpoint's serverSeq to the document's current
counter value `docInfo.ServerSeq`. -/
def pullChangeInfos (db : DB) (di : DocInfo) (reqPack : Pack)
    (cpAfterPush : Checkpoint) (initialServerSeq : Nat) :
    Except YorkieError (Checkpoint × List ChangeInfo) :=
  match db.FindChangeInfosBetweenServerSeqs di.id
      (reqPack.checkpoint.serverSeq + 1) initialServerSeq with
  | .error e => .error e
  | .ok pulledChanges => .ok (cpAfterPush.NextServerSeq di.serverSeq, pulledChanges)

/-- `pullSnapshot` (pushpull.go lines 161-249): fetch the last stored
snapshot; if its server sequence is at least `initialServerSeq` return its
bytes directly, otherwise rebuild the document from the snapshot, replay
the changes in `(snapshot.serverSeq, initialServerSeq]` and serialize.  In
both exits the returned checkpoint's serverSeq is advanced to the
document's current counter value `docInfo.ServerSeq`. -/
def pullSnapshot {Doc : Type} (ops : DocOps Doc) (db : DB) (di : DocInfo)
    (pushedCP : Checkpoint) (initialServerSeq : Nat) :
    Except YorkieError (Checkpoint × Bytes) := do
  let snapshotInfo ← db.FindLastSnapshotInfo di.id
  if snapshotInfo.serverSeq ≥ initialServerSeq then
    return (pushedCP.NextServerSeq di.serverSeq, snapshotInfo.snapshot)
  else
    let doc ← ops.NewInternalDocumentFromSnapshot di.Key snapshotInfo.serverSeq
      snapshotInfo.snapshot
    let changes ← db.FindChangesBetweenServerSeqs di.id
      (snapshotInfo.serverSeq + 1) initialServerSeq
    let doc ← ops.ApplyChangePack doc
      (NewPack di.Key (InitialCheckpoint.NextServerSeq di.serverSeq) changes none)
    let snapshot ← ops.ObjectToBytes doc
    return (pushedCP.NextServerSeq di.serverSeq, snapshot)

/-- `pullPack` (pushpull.go lines 84-123): reject the request when
`initialServerSeq` is below the request checkpoint's serverSeq; otherwise
serve individual changes when the gap is below the snapshot threshold, and
a snapshot otherwise. -/
def pullPack {Doc : Type} (ops : DocOps Doc) (db : DB) (cfg : Config)
    (di : DocInfo) (reqPack : Pack) (pushedCP : Checkpoint)
    (initialServerSeq : Nat) : Except YorkieError ServerPack :=
  if initialServerSeq < reqPack.checkpoint.serverSeq then
    .error (.invalidServerSeq initialServerSeq reqPack.checkpoint.serverSeq)
  else if initialServerSeq - reqPack.checkpoint.serverSeq < cfg.SnapshotThreshold then
    match pullChangeInfos db di reqPack pushedCP initialServerSeq with
    | .error e => .error e
    | .ok (cpAfterPull, pulledChanges) =>
      .ok (NewServerPack di.Key cpAfterPull (some pulledChanges) none)
  else
    match pullSnapshot ops db di pushedCP initialServerSeq with
    | .error e => .error e
    | .ok (cpAfterPull, snapshot) =>
      .ok (NewServerPack di.Key cpAfterPull none (some snapshot))

/-- Modelled from the spec: the surrounding push-then-pull cycle (its
driver is not among the shown sources) — "the document's current server
sequence (captured once at the start of the whole cycle — initialServerSeq)"
followed by the push stage and then the pull stage on the post-push state. -/
def pushPull {Doc : Type} (ops : DocOps Doc) (db : DB) (cfg : Config)
    (ci : ClientInfo) (di : DocInfo) (reqPack : Pack) :
    Except YorkieError (ServerPack × DocInfo) :=
  match pullPack ops db cfg (pushChanges ci di reqPack).2.1 reqPack
      (pushChanges ci di reqPack).1 di.serverSeq with
  | .error e => .error e
  | .ok pack => .ok (pack, (pushChanges ci di reqPack).2.1)

/-! ## Concrete instances used by witnesses and counterexamples -/

/-- A client holding the zero checkpoint for every document. -/
def ci0 : ClientInfo := ⟨"c", fun _ => InitialCheckpoint⟩

/-- A fresh document record with counter 0. -/
def di0 : DocInfo := ⟨0, "k", "k", 0⟩

/-- A client that has already pushed up to clientSeq 3 / serverSeq 3. -/
def ci3 : ClientInfo := ⟨"c", fun _ => ⟨3, 3⟩⟩

/-- A document record whose counter stands at 3. -/
def di3 : DocInfo := ⟨0, "k", "k", 3⟩

/-- Document collaborator over a trivial in-memory document type. -/
def unitOps : DocOps Unit := ⟨fun _ _ _ => .ok (), fun _ _ => .ok (), fun _ => .ok []⟩

/-- A store with no stored changes and an empty snapshot at sequence 0. -/
def db0 : DB := ⟨fun _ _ _ => .ok [], fun _ _ _ => .ok [], fun _ => .ok ⟨0, []⟩⟩

/-- A store whose last stored snapshot is `[42]` at server sequence 7. -/
def dbSnap : DB := ⟨fun _ _ _ => .ok [], fun _ _ _ => .ok [], fun _ => .ok ⟨7, [42]⟩⟩

/-- A snapshot threshold of 10. -/
def cfg10 : Config := ⟨10⟩

/-- Request pack: one new change with clientSeq 1, client checkpoint (0,0). -/
def packOne : Pack := ⟨"k", ⟨0, 0⟩, [⟨1, 0⟩], none⟩

/-- Request pack with an empty change list. -/
def packEmpty : Pack := ⟨"k", ⟨0, 0⟩, [], none⟩

/-- Request pack claiming a checkpoint serverSeq (5) ahead of the server. -/
def packAhead : Pack := ⟨"k", ⟨0, 5⟩, [], none⟩

/-- Request pack retrying clientSeq 2 after the server already saw clientSeq 3. -/
def packDup : Pack := ⟨"k", ⟨3, 3⟩, [⟨2, 0⟩], none⟩

/-! ## Helper lemmas about the push loop -/

/-- Accepting step: when the change's client sequence exceeds the running
checkpoint's clientSeq, the loop body stamps and appends the change. -/
theorem pushStep_accept (s : PushState) (cn : Change) (h : s.cp.clientSeq < cn.clientSeq) :
    pushStep s cn =
      ⟨⟨max s.cp.clientSeq cn.clientSeq, s.docSeq + 1⟩, s.docSeq + 1,
        s.pushed ++ [cn.SetServerSeq (s.docSeq + 1)], s.warns⟩ := by
  simp [pushStep, Checkpoint.NextServerSeq, Checkpoint.SyncClientSeq, h]

/-- Dropping step: otherwise the loop body only syncs clientSeq and logs a
warning. -/
theorem pushStep_drop (s : PushState) (cn : Change) (h : ¬ s.cp.clientSeq < cn.clientSeq) :
    pushStep s cn =
      ⟨⟨max s.cp.clientSeq cn.clientSeq, s.cp.serverSeq⟩, s.docSeq, s.pushed, s.warns + 1⟩ := by
  simp [pushStep, Checkpoint.NextServerSeq, Checkpoint.SyncClientSeq, h]

/-- Master invariant of the `pushChanges` loop, by induction on the input
list from an arbitrary running state: the accepted changes are appended in
order and stamped with consecutive server sequence numbers continuing from
the counter, the counter advances once per accepted change, clientSeq is
the running max, serverSeq is the last assigned number (or untouched when
none was accepted), and one warning is logged per dropped change. -/
theorem foldl_pushStep_spec (l : List Change) (s : PushState) :
    ∃ δ : List Change,
      (l.foldl pushStep s).pushed = s.pushed ++ δ ∧
      δ.map Change.serverSeq = List.range' (s.docSeq + 1) δ.length ∧
      (l.foldl pushStep s).docSeq = s.docSeq + δ.length ∧
      (l.foldl pushStep s).cp.clientSeq = (l.map Change.clientSeq).foldl max s.cp.clientSeq ∧
      (l.foldl pushStep s).cp.serverSeq =
        (if δ.length = 0 then s.cp.serverSeq else s.docSeq + δ.length) ∧
      (l.foldl pushStep s).warns = s.warns + (l.length - δ.length) ∧
      δ.length ≤ l.length := by
  induction l generalizing s with
  | nil =>
    exact ⟨[], by simp, by simp [List.range'], by simp, rfl, by simp, by simp, by simp⟩
  | cons c t ih =>
    by_cases h : s.cp.clientSeq < c.clientSeq
    · rw [List.foldl_cons, pushStep_accept s c h]
      obtain ⟨δ, h1, h2, h3, h4, h5, h6, h7⟩ :=
        ih ⟨⟨max s.cp.clientSeq c.clientSeq, s.docSeq + 1⟩, s.docSeq + 1,
          s.pushed ++ [c.SetServerSeq (s.docSeq + 1)], s.warns⟩
      refine ⟨c.SetServerSeq (s.docSeq + 1) :: δ, ?_, ?_, ?_, ?_, ?_, ?_, ?_⟩
      · rw [h1]; simp
      · simp only [List.map_cons, List.length_cons, List.range'_succ]
        rw [h2]
        simp [Change.SetServerSeq]
      · rw [h3]; simp only [List.length_cons]; omega
      · rw [h4]; simp
      · rw [h5]
        simp only [List.length_cons, Nat.succ_ne_zero, if_false]
        split <;> omega
      · rw [h6]; simp only [List.length_cons]; omega
      · simp only [List.length_cons]; omega
    · rw [List.foldl_cons, pushStep_drop s c h]
      obtain ⟨δ, h1, h2, h3, h4, h5, h6, h7⟩ :=
        ih ⟨⟨max s.cp.clientSeq c.clientSeq, s.cp.serverSeq⟩, s.docSeq, s.pushed, s.warns + 1⟩
      refine ⟨δ, ?_, ?_, ?_, ?_, ?_, ?_, ?_⟩
      · rw [h1]
      · exact h2
      · rw [h3]
      · rw [h4]; simp
      · rw [h5]
      · rw [h6]; simp only [List.length_cons]; omega
      · simp only [List.length_cons]; omega

/-! ## Helper lemmas about the pull stage -/

/-- A successful incremental pull always returns the post-push checkpoint
with serverSeq advanced to the document's current counter. -/
theorem pullChangeInfos_ok (db : DB) (di : DocInfo) (reqPack : Pack)
    (cpAfterPush : Checkpoint) (initialServerSeq : Nat) (cp' : Checkpoint)
    (cs : List ChangeInfo)
    (h : pullChangeInfos db di reqPack cpAfterPush initialServerSeq = .ok (cp', cs)) :
    cp' = cpAfterPush.NextServerSeq di.serverSeq := by
  unfold pullChangeInfos at h
  split at h
  · exact Except.noConfusion h
  · exact (congrArg Prod.fst (Except.ok.inj h)).symm

/-- A successful snapshot pull always returns the post-push checkpoint with
serverSeq advanced to the document's current counter, on both the fast path
and the reconstruction path. -/
theorem pullSnapshot_ok {Doc : Type} (ops : DocOps Doc) (db : DB) (di : DocInfo)
    (pushedCP : Checkpoint) (initialServerSeq : Nat) (cp' : Checkpoint) (b : Bytes)
    (h : pullSnapshot ops db di pushedCP initialServerSeq = .ok (cp', b)) :
    cp' = pushedCP.NextServerSeq di.serverSeq := by
  unfold pullSnapshot at h
  simp only [Bind.bind, Except.bind] at h
  split at h
  · exact Except.noConfusion h
  · split at h
    · simp only [pure, Except.pure] at h
      exact (congrArg Prod.fst (Except.ok.inj h)).symm
    · split at h
      · exact Except.noConfusion h
      · split at h
        · exact Except.noConfusion h
        · split at h
          · exact Except.noConfusion h
          · split at h
            · exact Except.noConfusion h
            · simp only [pure, Except.pure] at h
              exact (congrArg Prod.fst (Except.ok.inj h)).symm

/-- Every successful `pullPack` result carries a checkpoint whose serverSeq
is the document's current counter value. -/
theorem pullPack_ok_checkpoint {Doc : Type} (ops : DocOps Doc) (db : DB) (cfg : Config)
    (di : DocInfo) (reqPack : Pack) (pushedCP : Checkpoint) (initialServerSeq : Nat)
    (sp : ServerPack)
    (h : pullPack ops db cfg di reqPack pushedCP initialServerSeq = .ok sp) :
    sp.checkpoint.serverSeq = di.serverSeq := by
  unfold pullPack at h
  split at h
  · exact Except.noConfusion h
  · split at h
    · cases hx : pullChangeInfos db di reqPack pushedCP initialServerSeq with
      | error e => rw [hx] at h; exact Except.noConfusion h
      | ok r =>
        rw [hx] at h
        obtain ⟨cp', cs⟩ := r
        have hr := pullChangeInfos_ok db di reqPack pushedCP initialServerSeq cp' cs hx
        have hsp := Except.ok.inj h
        rw [← hsp]
        rw [hr]
        rfl
    · cases hx : pullSnapshot ops db di pushedCP initialServerSeq with
      | error e => rw [hx] at h; exact Except.noConfusion h
      | ok r =>
        rw [hx] at h
        obtain ⟨cp', b⟩ := r
        have hr := pullSnapshot_ok ops db di pushedCP initialServerSeq cp' b hx
        have hsp := Except.ok.inj h
        rw [← hsp]
        rw [hr]
        rfl

/-- A left fold of `max` never goes below its starting value. -/
theorem le_foldl_max (l : List Nat) (a : Nat) : a ≤ l.foldl max a := by
  induction l generalizing a with
  | nil => simp
  | cons x t ih => exact le_trans (le_max_left a x) (ih (max a x))

/-- The running checkpoint's clientSeq after one loop iteration is the max
of its previous value and the examined change's client sequence. -/
theorem pushStep_clientSeq (s : PushState) (cn : Change) :
    (pushStep s cn).cp.clientSeq = max s.cp.clientSeq cn.clientSeq := by
  by_cases h : s.cp.clientSeq < cn.clientSeq
  · rw [pushStep_accept s cn h]
  · rw [pushStep_drop s cn h]

/-- The running checkpoint's clientSeq never decreases across the loop. -/
theorem foldl_pushStep_clientSeq_mono (l : List Change) (s : PushState) :
    s.cp.clientSeq ≤ (l.foldl pushStep s).cp.clientSeq := by
  obtain ⟨δ, h1, h2, h3, h4, h5, h6, h7⟩ := foldl_pushStep_spec l s
  rw [h4]
  exact le_foldl_max _ _

/-- Summary of one `pushChanges` call, read off the master invariant at the
initial state: the accepted list's server sequence numbers, the final
counter, and both components of the returned checkpoint. -/
theorem pushChanges_spec (ci : ClientInfo) (di : DocInfo) (reqPack : Pack) :
    ((pushChanges ci di reqPack).2.2).map Change.serverSeq =
      List.range' (di.serverSeq + 1) ((pushChanges ci di reqPack).2.2).length ∧
    (pushChanges ci di reqPack).2.1.serverSeq =
      di.serverSeq + ((pushChanges ci di reqPack).2.2).length ∧
    (pushChanges ci di reqPack).1.clientSeq =
      (reqPack.changes.map Change.clientSeq).foldl max (ci.Checkpoint di.id).clientSeq ∧
    (pushChanges ci di reqPack).1.serverSeq =
      (if ((pushChanges ci di reqPack).2.2).length = 0
        then (ci.Checkpoint di.id).serverSeq
        else di.serverSeq + ((pushChanges ci di reqPack).2.2).length) := by
  obtain ⟨δ, h1, h2, h3, h4, h5, h6, h7⟩ :=
    foldl_pushStep_spec reqPack.changes (PushState.init ci di)
  have hp : (pushChanges ci di reqPack).2.2 = δ := by
    show (reqPack.changes.foldl pushStep (PushState.init ci di)).pushed = δ
    rw [h1]
    simp [PushState.init]
  refine ⟨?_, ?_, ?_, ?_⟩
  · rw [hp]
    exact h2
  · rw [hp]
    show (reqPack.changes.foldl pushStep (PushState.init ci di)).docSeq = _
    rw [h3]
    rfl
  · show (reqPack.changes.foldl pushStep (PushState.init ci di)).cp.clientSeq = _
    rw [h4]
    rfl
  · rw [hp]
    show (reqPack.changes.foldl pushStep (PushState.init ci di)).cp.serverSeq = _
    rw [h5]
    rfl

/-! ## Claim theorems -/

/-- C3: In `pushChanges`, a change is accepted — assigned the next server
sequence number from the document's counter, stamped with it, appended to
the accepted list, with the running checkpoint's serverSeq advanced to it —
exactly when its client sequence number is strictly greater than the
running checkpoint's clientSeq at the time it is examined; every other
change is silently dropped: no server sequence is assigned, the counter,
accepted list and checkpoint serverSeq are untouched, only a warning is
logged and the clientSeq is synced.  No error is raised in either case
(`pushChanges` is total). -/
theorem pushChanges_accept_characterization (ci : ClientInfo) (di : DocInfo)
    (pre : List Change) (cn : Change) :
    ((pre.foldl pushStep (PushState.init ci di)).cp.clientSeq < cn.clientSeq →
      ((pre ++ [cn]).foldl pushStep (PushState.init ci di)).pushed =
          (pre.foldl pushStep (PushState.init ci di)).pushed ++
            [cn.SetServerSeq ((pre.foldl pushStep (PushState.init ci di)).docSeq + 1)] ∧
      ((pre ++ [cn]).foldl pushStep (PushState.init ci di)).docSeq =
          (pre.foldl pushStep (PushState.init ci di)).docSeq + 1 ∧
      ((pre ++ [cn]).foldl pushStep (PushState.init ci di)).cp.serverSeq =
          (pre.foldl pushStep (PushState.init ci di)).docSeq + 1 ∧
      ((pre ++ [cn]).foldl pushStep (PushState.init ci di)).warns =
          (pre.foldl pushStep (PushState.init ci di)).warns) ∧
    (¬ (pre.foldl pushStep (PushState.init ci di)).cp.clientSeq < cn.clientSeq →
      ((pre ++ [cn]).foldl pushStep (PushState.init ci di)).pushed =
          (pre.foldl pushStep (PushState.init ci di)).pushed ∧
      ((pre ++ [cn]).foldl pushStep (PushState.init ci di)).docSeq =
          (pre.foldl pushStep (PushState.init ci di)).docSeq ∧
      ((pre ++ [cn]).foldl pushStep (PushState.init ci di)).cp.serverSeq =
          (pre.foldl pushStep (PushState.init ci di)).cp.serverSeq ∧
      ((pre ++ [cn]).foldl pushStep (PushState.init ci di)).warns =
          (pre.foldl pushStep (PushState.init ci di)).warns + 1) := by
  constructor
  · intro h
    rw [List.foldl_append, List.foldl_cons, List.foldl_nil, pushStep_accept _ _ h]
    exact ⟨rfl, rfl, rfl, rfl⟩
  · intro h
    rw [List.foldl_append, List.foldl_cons, List.foldl_nil, pushStep_drop _ _ h]
    exact ⟨rfl, rfl, rfl, rfl⟩

/-- C4 (amended): after a push, the returned checkpoint's clientSeq equals
the maximum of the prior checkpoint's clientSeq and every client sequence
number seen in the batch (the fold of max over the batch, so it equals the
batch maximum whenever the batch reaches at least the prior clientSeq, but
never regresses below the prior value); the returned serverSeq equals the
last assigned server sequence number — the accepted changes being stamped
`di.serverSeq + 1, ..., di.serverSeq + K` in order — or the prior
checkpoint's serverSeq when no change is accepted. -/
theorem pushChanges_checkpoint_advance (ci : ClientInfo) (di : DocInfo) (reqPack : Pack) :
    (pushChanges ci di reqPack).1.clientSeq =
      (reqPack.changes.map Change.clientSeq).foldl max (ci.Checkpoint di.id).clientSeq ∧
    (pushChanges ci di reqPack).1.serverSeq =
      (if ((pushChanges ci di reqPack).2.2).length = 0
        then (ci.Checkpoint di.id).serverSeq
        else di.serverSeq + ((pushChanges ci di reqPack).2.2).length) ∧
    ((pushChanges ci di reqPack).2.2).map Change.serverSeq =
      List.range' (di.serverSeq + 1) ((pushChanges ci di reqPack).2.2).length :=
  ⟨(pushChanges_spec ci di reqPack).2.2.1, (pushChanges_spec ci di reqPack).2.2.2,
    (pushChanges_spec ci di reqPack).1⟩

/-- C4 (counterexample to the claim as stated): with prior checkpoint
(clientSeq 3, serverSeq 3) and a batch whose only change carries clientSeq
2, the returned checkpoint's clientSeq is 3, not the batch maximum 2. -/
theorem pushChanges_clientSeq_not_batch_max_cex :
    (pushChanges ci3 di3 packDup).1.clientSeq = 3 ∧
    packDup.changes.map Change.clientSeq = [2] ∧
    (3 : Nat) ≠ 2 :=
  ⟨rfl, rfl, by decide⟩

/-- C5: the server sequence numbers stamped onto the K changes accepted by
one push starting from document counter value s are exactly
`s+1, s+2, ..., s+K` in list order — consecutive, hence strictly increasing
with no gaps and no repeats — and the document counter finishes at `s+K`. -/
theorem pushChanges_serverSeq_assignment (ci : ClientInfo) (di : DocInfo) (reqPack : Pack) :
    ((pushChanges ci di reqPack).2.2).map Change.serverSeq =
      List.range' (di.serverSeq + 1) ((pushChanges ci di reqPack).2.2).length ∧
    (pushChanges ci di reqPack).2.1.serverSeq =
      di.serverSeq + ((pushChanges ci di reqPack).2.2).length :=
  ⟨(pushChanges_spec ci di reqPack).1, (pushChanges_spec ci di reqPack).2.1⟩

/-- C9: a push with an empty change list is a no-op — it returns the
client's stored checkpoint for the document unchanged, an unchanged
document record (counter not incremented), an empty accepted list, and
emits no log line. -/
theorem pushChanges_empty_noop (ci : ClientInfo) (di : DocInfo) (reqPack : Pack)
    (h : reqPack.changes = []) :
    pushChanges ci di reqPack = (ci.Checkpoint di.id, di, []) ∧
    pushLogLines ci di reqPack = 0 := by
  constructor
  · unfold pushChanges
    rw [h]
    rfl
  · unfold pushLogLines
    rw [h]
    rfl

/-- C10: within a single `pushChanges` batch, after a change with client
sequence number c has been accepted, every later change whose client
sequence number is at most c is dropped at its own step: the accepted
list, the document counter and the checkpoint's serverSeq are left
untouched, so it is never assigned a server sequence number. -/
theorem pushChanges_batch_dedup (ci : ClientInfo) (di : DocInfo)
    (pre mid : List Change) (c d : Change)
    (_hacc : (pre.foldl pushStep (PushState.init ci di)).cp.clientSeq < c.clientSeq)
    (hle : d.clientSeq ≤ c.clientSeq) :
    (pushStep ((pre ++ c :: mid).foldl pushStep (PushState.init ci di)) d).pushed =
        ((pre ++ c :: mid).foldl pushStep (PushState.init ci di)).pushed ∧
    (pushStep ((pre ++ c :: mid).foldl pushStep (PushState.init ci di)) d).docSeq =
        ((pre ++ c :: mid).foldl pushStep (PushState.init ci di)).docSeq ∧
    (pushStep ((pre ++ c :: mid).foldl pushStep (PushState.init ci di)) d).cp.serverSeq =
        ((pre ++ c :: mid).foldl pushStep (PushState.init ci di)).cp.serverSeq := by
  have hsplit : (pre ++ c :: mid).foldl pushStep (PushState.init ci di) =
      mid.foldl pushStep (pushStep (pre.foldl pushStep (PushState.init ci di)) c) := by
    rw [List.foldl_append, List.foldl_cons]
  have hc : c.clientSeq ≤
      ((pre ++ c :: mid).foldl pushStep (PushState.init ci di)).cp.clientSeq := by
    rw [hsplit]
    refine le_trans ?_ (foldl_pushStep_clientSeq_mono mid _)
    rw [pushStep_clientSeq]
    exact le_max_right _ _
  have hnd : ¬ ((pre ++ c :: mid).foldl pushStep (PushState.init ci di)).cp.clientSeq <
      d.clientSeq := not_lt.mpr (le_trans hle hc)
  rw [pushStep_drop _ _ hnd]
  exact ⟨rfl, rfl, rfl⟩

/-- C1 (amended): for every successful push-pull cycle, the checkpoint in
the returned ServerPack has serverSeq equal to the document's post-push
counter value, which is `initialServerSeq` plus the number of changes the
push stage accepted — so it equals `initialServerSeq` exactly when the
same request's push stage accepted no changes, and exceeds it otherwise. -/
theorem pushPull_checkpoint_serverSeq {Doc : Type} (ops : DocOps Doc) (db : DB)
    (cfg : Config) (ci : ClientInfo) (di : DocInfo) (reqPack : Pack)
    (sp : ServerPack) (di' : DocInfo)
    (h : pushPull ops db cfg ci di reqPack = .ok (sp, di')) :
    sp.checkpoint.serverSeq = di'.serverSeq ∧
    di'.serverSeq = di.serverSeq + ((pushChanges ci di reqPack).2.2).length := by
  unfold pushPull at h
  split at h
  · exact Except.noConfusion h
  · rename_i pack heq
    have hpair := Except.ok.inj h
    have hsp : pack = sp := congrArg Prod.fst hpair
    have hdi : (pushChanges ci di reqPack).2.1 = di' := congrArg Prod.snd hpair
    constructor
    · rw [← hsp, ← hdi]
      exact pullPack_ok_checkpoint ops db cfg (pushChanges ci di reqPack).2.1 reqPack
        (pushChanges ci di reqPack).1 di.serverSeq pack heq
    · rw [← hdi]
      exact (pushChanges_spec ci di reqPack).2.1

/-- C1 (counterexample to the claim as stated): a cycle whose push stage
accepts one change starts with `initialServerSeq = 0` but returns a
checkpoint with serverSeq 1, not `initialServerSeq`. -/
theorem pushPull_checkpoint_not_initial_cex :
    di0.serverSeq = 0 ∧
    (pushPull unitOps db0 cfg10 ci0 di0 packOne).map
        (fun r => r.1.checkpoint.serverSeq) = .ok 1 ∧
    (1 : Nat) ≠ 0 :=
  ⟨rfl, rfl, by decide⟩

/-- C2: when `initialServerSeq` is at least the request checkpoint's
serverSeq, `pullPack` takes the incremental-changes path exactly when
`gap = initialServerSeq - request.checkpoint.serverSeq` is strictly below
the configured snapshot threshold, and the snapshot path otherwise; in
particular a gap of T-1 is served incrementally and a gap of T by
snapshot. -/
theorem pullPack_threshold_branch {Doc : Type} (ops : DocOps Doc) (db : DB)
    (cfg : Config) (di : DocInfo) (reqPack : Pack) (pushedCP : Checkpoint)
    (initialServerSeq : Nat)
    (h : reqPack.checkpoint.serverSeq ≤ initialServerSeq) :
    pullPack ops db cfg di reqPack pushedCP initialServerSeq =
      (if initialServerSeq - reqPack.checkpoint.serverSeq < cfg.SnapshotThreshold then
        match pullChangeInfos db di reqPack pushedCP initialServerSeq with
        | .error e => .error e
        | .ok r => .ok (NewServerPack di.Key r.1 (some r.2) none)
      else
        match pullSnapshot ops db di pushedCP initialServerSeq with
        | .error e => .error e
        | .ok r => .ok (NewServerPack di.Key r.1 none (some r.2))) := by
  unfold pullPack
  rw [if_neg (by omega)]
  by_cases hgap : initialServerSeq - reqPack.checkpoint.serverSeq < cfg.SnapshotThreshold
  · simp only [if_pos hgap]
    cases hx : pullChangeInfos db di reqPack pushedCP initialServerSeq with
    | error e => rfl
    | ok r =>
      obtain ⟨a, b⟩ := r
      rfl
  · simp only [if_neg hgap]
    cases hx : pullSnapshot ops db di pushedCP initialServerSeq with
    | error e => rfl
    | ok r =>
      obtain ⟨a, b⟩ := r
      rfl

/-- C6: whenever `initialServerSeq` is strictly below the request
checkpoint's serverSeq, `pullPack` returns the invalid-server-sequence
error and no response pack — for every storage and document collaborator,
so before either pull path is taken. -/
theorem pullPack_invalid_server_seq {Doc : Type} (ops : DocOps Doc) (db : DB)
    (cfg : Config) (di : DocInfo) (reqPack : Pack) (pushedCP : Checkpoint)
    (initialServerSeq : Nat)
    (h : initialServerSeq < reqPack.checkpoint.serverSeq) :
    pullPack ops db cfg di reqPack pushedCP initialServerSeq =
      .error (.invalidServerSeq initialServerSeq reqPack.checkpoint.serverSeq) := by
  unfold pullPack
  rw [if_pos h]

/-- C7: when the last stored snapshot's server sequence is at least
`initialServerSeq`, `pullSnapshot` returns the stored snapshot bytes
unchanged, for every document collaborator and every behaviour of the
change-range fetches — no document is instantiated, no change range is
read, no change is replayed. -/
theorem pullSnapshot_fast_path {Doc : Type} (ops : DocOps Doc) (db : DB)
    (di : DocInfo) (pushedCP : Checkpoint) (initialServerSeq : Nat)
    (snap : SnapshotInfo)
    (hsnap : db.FindLastSnapshotInfo di.id = .ok snap)
    (hge : initialServerSeq ≤ snap.serverSeq) :
    pullSnapshot ops db di pushedCP initialServerSeq =
      .ok (pushedCP.NextServerSeq di.serverSeq, snap.snapshot) := by
  unfold pullSnapshot
  simp only [Bind.bind, Except.bind, hsnap]
  rw [if_pos hge]
  rfl

/-- C8: every successful `pullPack` result populates exactly one of the two
payload fields: pulled changes with no snapshot on the incremental path, a
snapshot with no changes on the snapshot path. -/
theorem pullPack_exactly_one_payload {Doc : Type} (ops : DocOps Doc) (db : DB)
    (cfg : Config) (di : DocInfo) (reqPack : Pack) (pushedCP : Checkpoint)
    (initialServerSeq : Nat) (sp : ServerPack)
    (h : pullPack ops db cfg di reqPack pushedCP initialServerSeq = .ok sp) :
    (sp.changeInfos.isSome = true ∧ sp.snapshot = none) ∨
    (sp.changeInfos = none ∧ sp.snapshot.isSome = true) := by
  unfold pullPack at h
  split at h
  · exact Except.noConfusion h
  · split at h
    · split at h
      · exact Except.noConfusion h
      · left
        cases Except.ok.inj h
        exact ⟨rfl, rfl⟩
    · split at h
      · exact Except.noConfusion h
      · right
        cases Except.ok.inj h
        exact ⟨rfl, rfl⟩

/-! ## Witnesses: each theorem with a hypothesis, applied at a concrete input -/

/-- Witness for C3 at a singleton batch whose change is new. -/
theorem pushChanges_accept_characterization_witness :
    (([] : List Change).foldl pushStep (PushState.init ci0 di0)).cp.clientSeq <
        (Change.mk 1 0).clientSeq ∧
    ((([] : List Change) ++ [Change.mk 1 0]).foldl pushStep (PushState.init ci0 di0)).pushed =
        (([] : List Change).foldl pushStep (PushState.init ci0 di0)).pushed ++
          [(Change.mk 1 0).SetServerSeq
            ((([] : List Change).foldl pushStep (PushState.init ci0 di0)).docSeq + 1)] :=
  ⟨by decide,
    ((pushChanges_accept_characterization ci0 di0 [] (Change.mk 1 0)).1 (by decide)).1⟩

/-- Witness for C9 at an empty request pack. -/
theorem pushChanges_empty_noop_witness :
    pushChanges ci0 di0 packEmpty = (ci0.Checkpoint di0.id, di0, []) ∧
    pushLogLines ci0 di0 packEmpty = 0 :=
  pushChanges_empty_noop ci0 di0 packEmpty rfl

/-- Witness for C10: a retried clientSeq 1 right after clientSeq 1 was
accepted in the same batch is dropped. -/
theorem pushChanges_batch_dedup_witness :
    (([] : List Change).foldl pushStep (PushState.init ci0 di0)).cp.clientSeq <
        (Change.mk 1 0).clientSeq ∧
    (Change.mk 1 0).clientSeq ≤ (Change.mk 1 0).clientSeq ∧
    (pushStep ((([] : List Change) ++ Change.mk 1 0 :: ([] : List Change)).foldl pushStep
          (PushState.init ci0 di0)) (Change.mk 1 0)).pushed =
      ((([] : List Change) ++ Change.mk 1 0 :: ([] : List Change)).foldl pushStep
          (PushState.init ci0 di0)).pushed :=
  ⟨by decide, by decide,
    (pushChanges_batch_dedup ci0 di0 [] [] (Change.mk 1 0) (Change.mk 1 0)
      (by decide) (by decide)).1⟩

/-- Witness for C1 (amended) at a cycle that accepts one change. -/
theorem pushPull_checkpoint_serverSeq_witness :
    (ServerPack.mk "k" ⟨1, 1⟩ (some []) none).checkpoint.serverSeq =
        (DocInfo.mk 0 "k" "k" 1).serverSeq ∧
    (DocInfo.mk 0 "k" "k" 1).serverSeq =
        di0.serverSeq + ((pushChanges ci0 di0 packOne).2.2).length :=
  pushPull_checkpoint_serverSeq unitOps db0 cfg10 ci0 di0 packOne
    (ServerPack.mk "k" ⟨1, 1⟩ (some []) none) (DocInfo.mk 0 "k" "k" 1) rfl

/-- Witness for C2 at a gap of 5 against threshold 10. -/
theorem pullPack_threshold_branch_witness :
    packOne.checkpoint.serverSeq ≤ 5 ∧
    pullPack unitOps db0 cfg10 di0 packOne InitialCheckpoint 5 =
      (if 5 - packOne.checkpoint.serverSeq < cfg10.SnapshotThreshold then
        match pullChangeInfos db0 di0 packOne InitialCheckpoint 5 with
        | .error e => .error e
        | .ok r => .ok (NewServerPack di0.Key r.1 (some r.2) none)
      else
        match pullSnapshot unitOps db0 di0 InitialCheckpoint 5 with
        | .error e => .error e
        | .ok r => .ok (NewServerPack di0.Key r.1 none (some r.2))) :=
  ⟨by decide,
    pullPack_threshold_branch unitOps db0 cfg10 di0 packOne InitialCheckpoint 5 (by decide)⟩

/-- Witness for C6: a request checkpoint at serverSeq 5 against
initialServerSeq 3 is rejected. -/
theorem pullPack_invalid_server_seq_witness :
    (3 : Nat) < packAhead.checkpoint.serverSeq ∧
    pullPack unitOps db0 cfg10 di0 packAhead InitialCheckpoint 3 =
      .error (.invalidServerSeq 3 packAhead.checkpoint.serverSeq) :=
  ⟨by decide,
    pullPack_invalid_server_seq unitOps db0 cfg10 di0 packAhead InitialCheckpoint 3 (by decide)⟩

/-- Witness for C7: a stored snapshot at sequence 7 serves a pull at
initialServerSeq 5 unchanged. -/
theorem pullSnapshot_fast_path_witness :
    dbSnap.FindLastSnapshotInfo di0.id = .ok ⟨7, [42]⟩ ∧
    (5 : Nat) ≤ (7 : Nat) ∧
    pullSnapshot unitOps dbSnap di0 InitialCheckpoint 5 =
      .ok (InitialCheckpoint.NextServerSeq di0.serverSeq, [42]) :=
  ⟨rfl, by decide,
    pullSnapshot_fast_path unitOps dbSnap di0 InitialCheckpoint 5 ⟨7, [42]⟩ rfl (by decide)⟩

/-- Witness for C8 at a successful incremental pull. -/
theorem pullPack_exactly_one_payload_witness :
    ((ServerPack.mk "k" ⟨0, 0⟩ (some []) none).changeInfos.isSome = true ∧
      (ServerPack.mk "k" ⟨0, 0⟩ (some []) none).snapshot = none) ∨
    ((ServerPack.mk "k" ⟨0, 0⟩ (some []) none).changeInfos = none ∧
      (ServerPack.mk "k" ⟨0, 0⟩ (some []) none).snapshot.isSome = true) :=
  pullPack_exactly_one_payload unitOps db0 cfg10 di0 packOne InitialCheckpoint 0
    (ServerPack.mk "k" ⟨0, 0⟩ (some []) none) rfl

end Yorkie
